import Mathlib

set_option maxRecDepth 16000
set_option maxHeartbeats 2000000

namespace FallAudit

/-! Shallow embedding of the core logic of `fall_audit_final_qwen_brain.py`
(class `AIProcessingCore`): prompt building (`build_prompt` with
`textwrap.dedent`), LLM invocation (`call_llm` over an abstract subprocess
environment), output extraction (`parse_llm_output`, i.e. `re.findall` over
JSON code fences followed by `json.loads`), the batch loop (`process_rows`
with a cooperative cancellation schedule standing for the observer thread
writing `cancel_requested`), and result serialization (`save_results` via
`csv.writer`). -/

/-- Python `str` whitespace as used by `str.strip` and the regex class `\s`,
restricted to the ASCII whitespace characters (the only ones this program
exercises). -/
def isPyWs (c : Char) : Bool :=
  c = ' ' || c = '\t' || c = '\n' || c = '\r' || c = '\x0b' || c = '\x0c'

/-- `str.strip()` on a character list: drop leading and trailing whitespace. -/
def pyStripChars (cs : List Char) : List Char :=
  ((cs.dropWhile isPyWs).reverse.dropWhile isPyWs).reverse

/-- `str.strip()`. -/
def pyStrip (s : String) : String :=
  String.mk (pyStripChars s.data)

/-- `" ".join(row)`. -/
def pyJoin (row : List String) : String :=
  String.intercalate " " row

/-- Boolean list-prefix test (`str.startswith` at the character level). -/
def listStarts : List Char → List Char → Bool
  | [], _ => true
  | _ :: _, [] => false
  | p :: ps, c :: cs => p = c && listStarts ps cs

/-- Boolean substring test (`pat in text` at the character level). -/
def listContains : List Char → List Char → Bool
  | pat, [] => listStarts pat []
  | pat, c :: t => listStarts pat (c :: t) || listContains pat t

/-- `str.startswith`. -/
def pyStartswith (p s : String) : Bool :=
  listStarts p.data s.data

/-! ### JSON values and `json.loads`

`json.loads` is modelled as a total recursive-descent parser returning
`Except`; `Except.error` stands for a raised `json.JSONDecodeError`.  Error
messages carry the kind of Python message but not the line/column position.
Numerals are kept as their source text (`jnum`); no claim depends on
numeric value semantics.  Unicode `\u` escapes are decoded code point by
code point (surrogate-pair recombination is not modelled; no claim touches
it). -/

inductive Json where
  | jstr : String → Json
  | jnum : String → Json
  | jbool : Bool → Json
  | jnull : Json
  | jarr : List Json → Json
  | jobj : List (String × Json) → Json

/-- JSON whitespace skipped by the Python decoder. -/
def isJsonWs (c : Char) : Bool :=
  c = ' ' || c = '\t' || c = '\n' || c = '\r'

/-- Skip JSON whitespace. -/
def skipJsonWs (cs : List Char) : List Char :=
  cs.dropWhile isJsonWs

/-- Hex digit value (code points 48-57 are digits, 97-102 and 65-70 the
lower- and upper-case letter digits). -/
def hexVal (c : Char) : Option Nat :=
  let n := c.toNat
  if 48 ≤ n ∧ n ≤ 57 then some (n - 48)
  else if 97 ≤ n ∧ n ≤ 102 then some (n - 87)
  else if 65 ≤ n ∧ n ≤ 70 then some (n - 55)
  else none

/-- Body of a JSON string, positioned just after the opening quote; returns
the decoded characters and the remaining input after the closing quote.
The fuel argument bounds the recursion and is always supplied ample. -/
def jstrBodyF : Nat → List Char → Except String (List Char × List Char)
  | 0, _ => Except.error "Unterminated string"
  | _ + 1, [] => Except.error "Unterminated string"
  | f + 1, c :: t =>
    if c = '"' then Except.ok ([], t)
    else if c = '\\' then
      match t with
      | [] => Except.error "Unterminated string"
      | e :: t2 =>
        let esc : Option (Char × List Char) :=
          if e = '"' then some ('"', t2)
          else if e = '\\' then some ('\\', t2)
          else if e = '/' then some ('/', t2)
          else if e = 'b' then some ('\x08', t2)
          else if e = 'f' then some ('\x0c', t2)
          else if e = 'n' then some ('\n', t2)
          else if e = 'r' then some ('\r', t2)
          else if e = 't' then some ('\t', t2)
          else if e = 'u' then
            match t2 with
            | h1 :: h2 :: h3 :: h4 :: t3 =>
              match hexVal h1, hexVal h2, hexVal h3, hexVal h4 with
              | some a, some b, some c2, some d =>
                some (Char.ofNat (((a * 16 + b) * 16 + c2) * 16 + d), t3)
              | _, _, _, _ => none
            | _ => none
          else none
        match esc with
        | some (ec, t3) =>
          match jstrBodyF f t3 with
          | Except.ok (body, rest) => Except.ok (ec :: body, rest)
          | Except.error err => Except.error err
        | none => Except.error "Invalid escape"
    else if c.toNat < 32 then Except.error "Invalid control character"
    else
      match jstrBodyF f t with
      | Except.ok (body, rest) => Except.ok (c :: body, rest)
      | Except.error err => Except.error err

/-- Body of a JSON string with ample fuel. -/
def jstrBody (cs : List Char) : Except String (List Char × List Char) :=
  jstrBodyF (cs.length + 1) cs

/-- JSON numeral, per the decoder regex
`-?(0|[1-9]\d*)(\.\d+)?([eE][-+]?\d+)?`; returns the matched text. -/
def jparseNumber (cs : List Char) : Option (String × List Char) :=
  let neg : List Char × List Char :=
    match cs with
    | '-' :: t => (['-'], t)
    | _ => ([], cs)
  match neg.2 with
  | [] => none
  | c :: _ =>
    if ¬ c.isDigit then none
    else
      let intPart : List Char × List Char :=
        if c = '0' then (['0'], neg.2.drop 1)
        else (neg.2.takeWhile Char.isDigit, neg.2.dropWhile Char.isDigit)
      let fracPart : List Char × List Char :=
        match intPart.2 with
        | '.' :: t =>
          let ds := t.takeWhile Char.isDigit
          if ds = [] then ([], intPart.2) else ('.' :: ds, t.dropWhile Char.isDigit)
        | _ => ([], intPart.2)
      let expPart : List Char × List Char :=
        match fracPart.2 with
        | e :: t =>
          if e = 'e' || e = 'E' then
            let signAndRest : List Char × List Char :=
              match t with
              | s :: t2 => if s = '+' || s = '-' then ([s], t2) else ([], t)
              | [] => ([], t)
            let ds := signAndRest.2.takeWhile Char.isDigit
            if ds = [] then ([], fracPart.2)
            else (e :: (signAndRest.1 ++ ds), signAndRest.2.dropWhile Char.isDigit)
          else ([], fracPart.2)
        | [] => ([], fracPart.2)
      some (String.mk (neg.1 ++ intPart.1 ++ fracPart.1 ++ expPart.1), expPart.2)

mutual

/-- One JSON value (the decoder `scan_once`), positioned at a non-whitespace
character.  Fuel decreases on every nested call and is always supplied
ample by `json_loads`. -/
def jparseValue : Nat → List Char → Except String (Json × List Char)
  | 0, _ => Except.error "Expecting value"
  | f + 1, cs =>
    match cs with
    | [] => Except.error "Expecting value"
    | c :: t =>
      if c = '"' then
        match jstrBody t with
        | Except.ok (body, rest) => Except.ok (Json.jstr (String.mk body), rest)
        | Except.error e => Except.error e
      else if c = '\x7b' then jparseObjBody f t
      else if c = '[' then jparseArrBody f t
      else if listStarts ("true").data cs then Except.ok (Json.jbool true, cs.drop 4)
      else if listStarts ("false").data cs then Except.ok (Json.jbool false, cs.drop 5)
      else if listStarts ("null").data cs then Except.ok (Json.jnull, cs.drop 4)
      else if listStarts ("NaN").data cs then Except.ok (Json.jnum "NaN", cs.drop 3)
      else if listStarts ("Infinity").data cs then Except.ok (Json.jnum "Infinity", cs.drop 8)
      else if listStarts ("-Infinity").data cs then Except.ok (Json.jnum "-Infinity", cs.drop 9)
      else
        match jparseNumber cs with
        | some (raw, rest) => Except.ok (Json.jnum raw, rest)
        | none => Except.error "Expecting value"

/-- Object body, positioned just after the opening brace. -/
def jparseObjBody : Nat → List Char → Except String (Json × List Char)
  | 0, _ => Except.error "Expecting value"
  | f + 1, cs =>
    match skipJsonWs cs with
    | '\x7d' :: r => Except.ok (Json.jobj [], r)
    | '"' :: r => jparseMembers f r []
    | _ => Except.error "Expecting property name enclosed in double quotes"

/-- Object members, positioned just after the opening quote of a key. -/
def jparseMembers : Nat → List Char → List (String × Json) →
    Except String (Json × List Char)
  | 0, _, _ => Except.error "Expecting value"
  | f + 1, cs, acc =>
    match jstrBody cs with
    | Except.error e => Except.error e
    | Except.ok (keyChars, r1) =>
      match skipJsonWs r1 with
      | ':' :: r3 =>
        match jparseValue f (skipJsonWs r3) with
        | Except.error e => Except.error e
        | Except.ok (v, r4) =>
          match skipJsonWs r4 with
          | ',' :: r6 =>
            (match skipJsonWs r6 with
             | '"' :: r8 => jparseMembers f r8 (acc ++ [(String.mk keyChars, v)])
             | _ => Except.error "Expecting property name enclosed in double quotes")
          | '\x7d' :: r6 => Except.ok (Json.jobj (acc ++ [(String.mk keyChars, v)]), r6)
          | _ => Except.error "Expecting \x27,\x27 delimiter"
      | _ => Except.error "Expecting \x27:\x27 delimiter"

/-- Array body, positioned just after the opening bracket. -/
def jparseArrBody : Nat → List Char → Except String (Json × List Char)
  | 0, _ => Except.error "Expecting value"
  | f + 1, cs =>
    match skipJsonWs cs with
    | ']' :: r => Except.ok (Json.jarr [], r)
    | cs1 =>
      match jparseValue f cs1 with
      | Except.error e => Except.error e
      | Except.ok (v, r) => jparseItems f r [v]

/-- Array items after the first, positioned just after a completed item. -/
def jparseItems : Nat → List Char → List Json → Except String (Json × List Char)
  | 0, _, _ => Except.error "Expecting value"
  | f + 1, cs, acc =>
    match skipJsonWs cs with
    | ',' :: r =>
      (match jparseValue f (skipJsonWs r) with
       | Except.error e => Except.error e
       | Except.ok (v, r2) => jparseItems f r2 (acc ++ [v]))
    | ']' :: r => Except.ok (Json.jarr acc, r)
    | _ => Except.error "Expecting \x27,\x27 delimiter"

end

/-- `json.loads`: skip leading whitespace, parse one value, require only
whitespace to remain (else the Python decoder raises `Extra data`). -/
def json_loads (cs : List Char) : Except String Json :=
  match jparseValue (2 * cs.length + 8) (skipJsonWs cs) with
  | Except.error e => Except.error e
  | Except.ok (v, rest) =>
    if skipJsonWs rest = [] then Except.ok v else Except.error "Extra data"

/-! ### The fence regex

`re.findall` with the pattern consisting of a literal three-backtick `json`
fence marker, `\s*`, a non-greedy brace-delimited capture, `\s*`, and a
closing three-backtick marker, under `re.DOTALL`.  The scan is leftmost,
non-overlapping; the non-greedy capture ends at the first closing brace
that is followed (after whitespace) by a closing fence. -/

/-- The literal fence opener of the pattern. -/
def fenceTag : List Char := ("```json").data

/-- Three backticks: the closing fence of the pattern. -/
def fenceClose : List Char := ("```").data

/-- After a candidate closing brace: `\s*` then the closing fence; returns
the rest of the input after the fence on success. -/
def closeFenceAfter (cs : List Char) : Option (List Char) :=
  let r := cs.dropWhile isPyWs
  if r.take 3 = fenceClose then some (r.drop 3) else none

/-- Non-greedy scan for the closing brace of the capture: stop at the first
closing brace that is followed by whitespace and a closing fence.  Returns
the capture body (up to and including that brace) and the rest after the
closing fence. -/
def findCaptureEnd : List Char → Option (List Char × List Char)
  | [] => none
  | c :: rest =>
    if c = '\x7d' then
      match closeFenceAfter rest with
      | some r => some ([c], r)
      | none =>
        match findCaptureEnd rest with
        | some (body, r) => some (c :: body, r)
        | none => none
    else
      match findCaptureEnd rest with
      | some (body, r) => some (c :: body, r)
      | none => none

/-- Try to match the whole fence pattern at the current position; on success
return the capture (the brace-delimited text) and the rest of the input
after the match. -/
def tryFenceAt (cs : List Char) : Option (List Char × List Char) :=
  if cs.take 7 = fenceTag then
    match (cs.drop 7).dropWhile isPyWs with
    | c :: tail =>
      if c = '\x7b' then
        match findCaptureEnd tail with
        | some (body, rest) => some ('\x7b' :: body, rest)
        | none => none
      else none
    | [] => none
  else none

/-- The `re.findall` scan: leftmost, non-overlapping matches; on a failed
match the scan advances one character.  Fuel is always supplied ample. -/
def fenceScan : Nat → List Char → List (List Char)
  | 0, _ => []
  | _ + 1, [] => []
  | f + 1, c :: t =>
    match tryFenceAt (c :: t) with
    | some (capture, rest) => capture :: fenceScan f rest
    | none => fenceScan f t

/-- All captures of the fence pattern in the input, in order. -/
def fenceMatches (cs : List Char) : List (List Char) :=
  fenceScan (cs.length + 1) cs

/-! ### Verdicts and `parse_llm_output` -/

/-- A Verdict is what `parse_llm_output` returns: either a plain Python
string (diagnostic or invocation-error text) or the value returned by
`json.loads` (a dict in every reachable case, since the capture is
brace-delimited). -/
inductive Verdict where
  | str : String → Verdict
  | json : Json → Verdict

/-- `parse_llm_output`, run in `Except` where `Except.error` would be an
exception escaping the method.  The `try/except json.JSONDecodeError`
of the source is the `match` on `json_loads`: a parse error is caught and
turned into the diagnostic string. -/
def parse_llm_output_run (llm_output : String) : Except String Verdict :=
  if llm_output = "" then Except.ok (Verdict.str "Error: No response from model")
  else
    match (fenceMatches llm_output.data).getLast? with
    | some json_text =>
      match json_loads json_text with
      | Except.ok d => Except.ok (Verdict.json d)
      | Except.error e => Except.ok (Verdict.str ("Error parsing JSON: " ++ e))
    | none => Except.ok (Verdict.str "No JSON found in response")

/-- `parse_llm_output` as a pure function (its exception-monad run never
errors; see the theorem on totality). -/
def parse_llm_output (llm_output : String) : Verdict :=
  match parse_llm_output_run llm_output with
  | Except.ok v => v
  | Except.error e => Verdict.str e

/-! ### `build_prompt` and `textwrap.dedent` -/

/-- Split on newline characters; the resulting lines carry no terminator.
Mirrors the line structure used by the `re.MULTILINE` regexes inside
`textwrap.dedent`. -/
def splitLines : List Char → List (List Char)
  | [] => [[]]
  | c :: t =>
    if c = '\n' then [] :: splitLines t
    else
      match splitLines t with
      | [] => [[c]]
      | l :: ls => (c :: l) :: ls

/-- Rejoin lines with newline characters. -/
def joinLines : List (List Char) → List Char
  | [] => []
  | [l] => l
  | l :: ls => l ++ '\n' :: joinLines ls

/-- The character class `[ \t]` of the `textwrap.dedent` regexes. -/
def isBlankTab (c : Char) : Bool :=
  c = ' ' || c = '\t'

/-- A line matching `^[ \t]+$` (whitespace-only, nonempty): `dedent`
normalizes such lines to empty before computing the margin. -/
def wsOnlyLine (l : List Char) : Bool :=
  !l.isEmpty && l.all isBlankTab

/-- The indent contributed by a line to the margin computation: the regex
`(^[ \t]*)(?:[^ \t\n])` yields the leading blank/tab run of every line that
has any other character. -/
def lineIndent (l : List Char) : Option (List Char) :=
  if l.all isBlankTab then none else some (l.takeWhile isBlankTab)

/-- Longest common prefix of two character lists; each step of the margin
loop in `textwrap.dedent` computes exactly this. -/
def commonPrefix : List Char → List Char → List Char
  | [], _ => []
  | _ :: _, [] => []
  | a :: as_, b :: bs =>
    if a = b then a :: commonPrefix as_ bs else []

/-- The margin of `textwrap.dedent`: fold of the common prefix over all
line indents (empty when there are none, which disables removal just as a
`None` margin does). -/
def marginOf (indents : List (List Char)) : List Char :=
  match indents with
  | [] => []
  | i :: rest => rest.foldl commonPrefix i

/-- Remove the margin from a line that starts with it (the per-line
`re.sub` of the margin). -/
def dedentRemove (margin l : List Char) : List Char :=
  if listStarts margin l then l.drop margin.length else l

/-- The margin computation and removal of `textwrap.dedent`, acting on the
already-normalized lines. -/
def dedentCore (ls : List (List Char)) : List Char :=
  if marginOf (ls.filterMap lineIndent) = [] then joinLines ls
  else joinLines (ls.map (dedentRemove (marginOf (ls.filterMap lineIndent))))

/-- `textwrap.dedent`: empty out whitespace-only lines, compute the common
margin of the remaining lines, remove it. -/
def pyDedent (cs : List Char) : List Char :=
  dedentCore ((splitLines cs).map (fun l => if wsOnlyLine l then [] else l))

/-- The f-string text before the interpolated note (ends with the literal
`Here is the note: `). -/
def tplA : List Char :=
  ("\n            <|im_start|>system\n            You are a helpful auditing assistant with extensive aged care nursing experience and care about elderly people<|im_end|>\n\n            <|im_start|>user\n            Please check this progress note for evidence of falls.\n            Your response will be in JSON format with \x27true\x27 where there is evidence and \x27false\x27 where there is not evidence.\n            Here is the note: ").data

/-- The f-string text after the interpolated note. -/
def tplB : List Char :=
  ("\n            Example reply format: ```json\x7b\"falls\": \"true/false\"\x7d```<|im_end|>\n\n\n            <|im_start|>assistant").data

/-- The f-string of `build_prompt` (interpolation of the note text between
the two fixed parts). -/
def promptTemplate (s : List Char) : List Char :=
  tplA ++ s ++ tplB

/-- `build_prompt`: the dedented template. -/
def build_prompt (prompt_text : String) : String :=
  String.mk (pyDedent (promptTemplate prompt_text.data))

/-! ### `call_llm` and the batch loop -/

/-- The observable outcome of one `subprocess.run` of the inference
process.  The environment of a run maps each prompt to such an outcome;
launch exceptions are not modelled (the GUI collaborator validates the
executable path before a run starts). -/
structure SubprocessResult where
  returncode : Int
  stdout : String
  stderr : String

/-- `call_llm`: non-zero exit yields the tagged error string carrying
stderr; otherwise stripped stdout (empty stdout stays empty). -/
def call_llm (env : String → SubprocessResult) (prompt : String) : String :=
  let result := env prompt
  if result.returncode ≠ 0 then "Error: LLM execution failed. " ++ result.stderr
  else if result.stdout ≠ "" then pyStrip result.stdout
  else ""

/-- `call_llm` with an invocation log: the returned list records the prompt
passed to the external process. -/
def call_llm_logged (env : String → SubprocessResult) (prompt : String) :
    String × List String :=
  (call_llm env prompt, [prompt])

/-- The mutable state of `AIProcessingCore` relevant to a run.  The
`cancel_requested` field is the only field written by the observer thread;
inside the loop its successive read values are supplied by the cancellation
schedule, so the field itself holds the initial value. -/
structure CoreState where
  output_path : String
  results : List (String × Verdict)
  rows_processed : Nat
  total_rows : Nat
  cancel_requested : Bool
  processing_done : Bool

/-- `AIProcessingCore.__init__`. -/
def init_core (output_path : String) : CoreState :=
  { output_path := output_path
    results := []
    rows_processed := 0
    total_rows := 0
    cancel_requested := false
    processing_done := false }

/-- The body of one loop iteration of `process_rows` past the cancellation
check, with the invocation log: empty joined text appends the empty
placeholder without invoking the LLM; an invocation failure string is
stored as-is; otherwise the parsed output is stored. -/
def row_result_logged (env : String → SubprocessResult) (row : List String) :
    (String × Verdict) × List String :=
  if pyStrip (pyJoin row) = "" then (("", Verdict.str ""), [])
  else
    let inv := call_llm_logged env (build_prompt (pyStrip (pyJoin row)))
    if pyStartswith "Error: LLM execution failed." inv.1 then
      ((pyStrip (pyJoin row), Verdict.str inv.1), inv.2)
    else
      ((pyStrip (pyJoin row), parse_llm_output inv.1), inv.2)

/-- The result entry appended for one row. -/
def row_result (env : String → SubprocessResult) (row : List String) :
    String × Verdict :=
  (row_result_logged env row).1

/-- One loop iteration past the cancellation check: append the row's result
and increment `rows_processed`. -/
def process_step (env : String → SubprocessResult) (st : CoreState)
    (row : List String) : CoreState :=
  { st with
    results := st.results ++ [row_result env row]
    rows_processed := st.rows_processed + 1 }

/-- The `for` loop of `process_rows`: before each record the loop reads
`cancel_requested`; the schedule `c` gives the value read at the boundary
where `rows_processed` records have been completed. -/
def process_loop (env : String → SubprocessResult) (c : Nat → Bool) :
    List (List String) → CoreState → CoreState
  | [], st => st
  | row :: rest, st =>
    if c st.rows_processed then st
    else process_loop env c rest (process_step env st row)

/-- Processing every row unconditionally (the loop when cancellation is
never observed). -/
def run_all (env : String → SubprocessResult) (rows : List (List String))
    (st : CoreState) : CoreState :=
  rows.foldl (process_step env) st

/-- `process_rows`: set `total_rows`, reset `rows_processed`, run the loop,
then set `processing_done`. -/
def process_rows (env : String → SubprocessResult) (c : Nat → Bool)
    (st : CoreState) (rows : List (List String)) : CoreState :=
  let st1 := { st with total_rows := rows.length, rows_processed := 0 }
  let st2 := process_loop env c rows st1
  { st2 with processing_done := true }

/-- The states of a run at every record boundary: the state before the
first check, then after each completed record, stopping where the loop
stops (cancellation or exhaustion). -/
def loop_states (env : String → SubprocessResult) (c : Nat → Bool) :
    List (List String) → CoreState → List CoreState
  | [], st => [st]
  | row :: rest, st =>
    if c st.rows_processed then [st]
    else st :: loop_states env c rest (process_step env st row)

/-- The record-boundary states of `process_rows` on a given core. -/
def run_trace (env : String → SubprocessResult) (c : Nat → Bool)
    (st : CoreState) (rows : List (List String)) : List CoreState :=
  loop_states env c rows { st with total_rows := rows.length, rows_processed := 0 }

/-! ### `save_results` -/

mutual

/-- Python `repr` of a `json.loads` value (string escaping inside `repr`
is not modelled; no claim depends on it). -/
def pyReprJson : Json → String
  | Json.jstr s => "\x27" ++ s ++ "\x27"
  | Json.jnum raw => raw
  | Json.jbool b => if b then "True" else "False"
  | Json.jnull => "None"
  | Json.jarr xs => "[" ++ pyReprList xs ++ "]"
  | Json.jobj kvs => "\x7b" ++ pyReprMembers kvs ++ "\x7d"

/-- Python `repr` of a list of values, comma-separated. -/
def pyReprList : List Json → String
  | [] => ""
  | [x] => pyReprJson x
  | x :: xs => pyReprJson x ++ ", " ++ pyReprList xs

/-- Python `repr` of dict members, comma-separated. -/
def pyReprMembers : List (String × Json) → String
  | [] => ""
  | [(k, v)] => "\x27" ++ k ++ "\x27: " ++ pyReprJson v
  | (k, v) :: kvs => "\x27" ++ k ++ "\x27: " ++ pyReprJson v ++ ", " ++ pyReprMembers kvs

end

/-- Python `str()` of a `json.loads` value, as the `csv` writer applies it
to a non-string cell. -/
def pyStrJson : Json → String
  | Json.jstr s => s
  | Json.jnum raw => raw
  | Json.jbool b => if b then "True" else "False"
  | Json.jnull => "None"
  | Json.jarr xs => pyReprJson (Json.jarr xs)
  | Json.jobj kvs => pyReprJson (Json.jobj kvs)

/-- Python `str()` of a Verdict cell. -/
def pyStrVerdict : Verdict → String
  | Verdict.str s => s
  | Verdict.json j => pyStrJson j

/-- Python dict lookup on the assoc list built by the object parser: with
duplicate keys the later binding wins, as in a Python dict. -/
def lookupLast (kvs : List (String × Json)) (k : String) : Option Json :=
  match kvs with
  | [] => none
  | (k2, v) :: rest =>
    match lookupLast rest k with
    | some r => some r
    | none => if k2 = k then some v else none

/-- The second CSV column for one result: the `falls` value when the
response is a dict containing that key, the whole response otherwise. -/
def final_answer_cell (response : Verdict) : String :=
  match response with
  | Verdict.json (Json.jobj kvs) =>
    match lookupLast kvs "falls" with
    | some v => pyStrJson v
    | none => pyStrVerdict response
  | _ => pyStrVerdict response

/-- Does a CSV field need quoting under the default `QUOTE_MINIMAL`
dialect? -/
def csvNeedsQuote (s : String) : Bool :=
  s.data.any (fun c => c = ',' || c = '"' || c = '\r' || c = '\n')

/-- Double every quote character (CSV quote escaping). -/
def csvEscapeChars : List Char → List Char
  | [] => []
  | c :: t => if c = '"' then '"' :: '"' :: csvEscapeChars t else c :: csvEscapeChars t

/-- One CSV field under the default dialect. -/
def csvField (s : String) : String :=
  if csvNeedsQuote s then "\"" ++ String.mk (csvEscapeChars s.data) ++ "\""
  else s

/-- One CSV row: comma-joined fields with the default `\r\n` terminator. -/
def csvRow (fields : List String) : String :=
  String.intercalate "," (fields.map csvField) ++ "\r\n"

/-- The lines `save_results` writes: the fixed header then one row per
result pair in order. -/
def save_lines (results : List (String × Verdict)) : List String :=
  csvRow ["Progres note", "Falls Detected?"] ::
    results.map (fun pr => csvRow [pr.1, final_answer_cell pr.2])

/-- The full byte content `save_results` writes. -/
def save_content (results : List (String × Verdict)) : String :=
  String.join (save_lines results)

/-- `save_results` acting on the destination file: an empty output path
writes nothing; otherwise mode `"w"` truncates, discarding any previous
content. -/
def save_results (st : CoreState) (prev : Option String) : Option String :=
  if st.output_path = "" then prev
  else some (save_content st.results)

/-! ### Concrete fixtures used by witnesses -/

/-- An environment whose inference process always succeeds with a fenced
`falls: true` answer. -/
def envFalls : String → SubprocessResult := fun _ =>
  { returncode := 0
    stdout := "```json\n\x7b\"falls\": \"true\"\x7d\n```"
    stderr := "" }

/-- A five-record input. -/
def rows5 : List (List String) := [["r1"], ["r2"], ["r3"], ["r4"], ["r5"]]

/-- A cancellation schedule that reads false at the first three record
boundaries and true from the fourth on. -/
def cancelAt3 : Nat → Bool := fun i => decide (3 ≤ i)

/-- The state at the first record boundary of a fresh one-record run. -/
def traceStart : CoreState :=
  { init_core "out.csv" with total_rows := 1, rows_processed := 0 }

/-! ### Line structure of the prompt template

Constants naming the individual lines of the f-string of `build_prompt`
and their dedented forms, used to reason about `textwrap.dedent`. -/

/-- Twelve spaces: the indentation of every content line of the template. -/
def sp12 : List Char := ("            ").data

/-- The template line that carries the interpolated note, up to the
interpolation point. -/
def notePre : List Char := ("            Here is the note: ").data

/-- The dedented form of `notePre`. -/
def noteTextChars : List Char := ("Here is the note: ").data

/-- Template line 2. -/
def tLine2 : List Char := ("            <|im_start|>system").data

/-- Template line 3. -/
def tLine3 : List Char := ("            You are a helpful auditing assistant with extensive aged care nursing experience and care about elderly people<|im_end|>").data

/-- Template line 5. -/
def tLine5 : List Char := ("            <|im_start|>user").data

/-- Template line 6. -/
def tLine6 : List Char := ("            Please check this progress note for evidence of falls.").data

/-- Template line 7. -/
def tLine7 : List Char := ("            Your response will be in JSON format with \x27true\x27 where there is evidence and \x27false\x27 where there is not evidence.").data

/-- Template line 9. -/
def tLine9 : List Char := ("            Example reply format: ```json\x7b\"falls\": \"true/false\"\x7d```<|im_end|>").data

/-- Template line 12. -/
def tLine12 : List Char := ("            <|im_start|>assistant").data

/-- Dedented template line 2. -/
def dLine2 : List Char := ("<|im_start|>system").data

/-- Dedented template line 3. -/
def dLine3 : List Char := ("You are a helpful auditing assistant with extensive aged care nursing experience and care about elderly people<|im_end|>").data

/-- Dedented template line 5. -/
def dLine5 : List Char := ("<|im_start|>user").data

/-- Dedented template line 6. -/
def dLine6 : List Char := ("Please check this progress note for evidence of falls.").data

/-- Dedented template line 7. -/
def dLine7 : List Char := ("Your response will be in JSON format with \x27true\x27 where there is evidence and \x27false\x27 where there is not evidence.").data

/-- Dedented template line 9. -/
def dLine9 : List Char := ("Example reply format: ```json\x7b\"falls\": \"true/false\"\x7d```<|im_end|>").data

/-- Dedented template line 12. -/
def dLine12 : List Char := ("<|im_start|>assistant").data

/-- Everything `build_prompt` emits before the note text, for a
newline-free note. -/
def promptHead : List Char :=
  ("\n<|im_start|>system\nYou are a helpful auditing assistant with extensive aged care nursing experience and care about elderly people<|im_end|>\n\n<|im_start|>user\nPlease check this progress note for evidence of falls.\nYour response will be in JSON format with \x27true\x27 where there is evidence and \x27false\x27 where there is not evidence.\nHere is the note: ").data

/-- Everything `build_prompt` emits after the note text, for a
newline-free note. -/
def promptTail : List Char :=
  ("\nExample reply format: ```json\x7b\"falls\": \"true/false\"\x7d```<|im_end|>\n\n\n<|im_start|>assistant").data

/-- The system role marker. -/
def sysMarker : List Char := ("<|im_start|>system").data

/-- The user role marker. -/
def userMarker : List Char := ("<|im_start|>user").data

/-- The assistant role marker. -/
def asstMarker : List Char := ("<|im_start|>assistant").data

/-! ## Theorems -/

/-- Every branch of `parse_llm_output` returns a Verdict; the one
exception source, `json.loads`, is caught. -/
theorem parse_llm_output_run_ok (s : String) :
    ∃ v, parse_llm_output_run s = Except.ok v := by
  unfold parse_llm_output_run
  repeat' split
  all_goals exact ⟨_, rfl⟩

/-- C4: for every input string the Result Extractor returns a Verdict on
every code path and never propagates an exception (its exception-monad run
always yields `ok`); in particular the fenced malformed JSON input
containing a trailing comma yields the diagnostic string naming the parse
error, not a crash. -/
theorem parse_llm_output_total :
    (∀ s : String, parse_llm_output_run s = Except.ok (parse_llm_output s)) ∧
    parse_llm_output "```json\n\x7b\"falls\": true,\x7d\n```" =
      Verdict.str "Error parsing JSON: Expecting property name enclosed in double quotes" := by
  constructor
  · intro s
    obtain ⟨v, hv⟩ := parse_llm_output_run_ok s
    rw [hv]
    unfold parse_llm_output
    rw [hv]
  · rfl

/-- C5: with multiple JSON-fenced blocks the Verdict comes from the last
block: a response carrying a fenced `true` object followed by a fenced
`false` object parses to the `false` object. -/
theorem parse_picks_last_fence :
    parse_llm_output
        "pre ```json \x7b\"falls\":\"true\"\x7d ``` mid ```json \x7b\"falls\":\"false\"\x7d ``` post" =
      Verdict.json (Json.jobj [("falls", Json.jstr "false")]) := by
  rfl

/-- C6: every non-empty input without a JSON-fenced block yields exactly
the diagnostic string `No JSON found in response`. -/
theorem no_fence_diagnostic (s : String) (h1 : s ≠ "")
    (h2 : fenceMatches s.data = []) :
    parse_llm_output s = Verdict.str "No JSON found in response" := by
  unfold parse_llm_output parse_llm_output_run
  rw [if_neg h1, h2]
  rfl

/-- Witness for C6 at the concrete fence-free input `hello`. -/
theorem no_fence_diagnostic_witness :
    parse_llm_output "hello" = Verdict.str "No JSON found in response" :=
  no_fence_diagnostic "hello" (by decide) (by rfl)

/-- C8: the Result Sink emits the fixed header then one row per pair in
list order, the second column being the `falls` value for a dict carrying
that key and the whole Verdict content otherwise; on the reference example
this is exactly the three expected lines. -/
theorem save_results_format :
    save_lines [("note A", Verdict.json (Json.jobj [("falls", Json.jstr "true")])),
                ("note B", Verdict.str "No JSON found in response")] =
      ["Progres note,Falls Detected?\r\n", "note A,true\r\n",
       "note B,No JSON found in response\r\n"] ∧
    ∀ results : List (String × Verdict),
      save_lines results =
        csvRow ["Progres note", "Falls Detected?"] ::
          results.map (fun pr => csvRow [pr.1, final_answer_cell pr.2]) :=
  ⟨rfl, fun _ => rfl⟩

/-- C9: writing the results twice to the same destination leaves the same
byte content as writing them once, because mode `w` truncates. -/
theorem save_results_idempotent (st : CoreState) (prev : Option String) :
    save_results st (save_results st prev) = save_results st prev := by
  unfold save_results
  by_cases h : st.output_path = "" <;> simp [h]

/-- One loop iteration increments the processed counter. -/
theorem process_step_rows_processed (env : String → SubprocessResult)
    (st : CoreState) (row : List String) :
    (process_step env st row).rows_processed = st.rows_processed + 1 := rfl

/-- One loop iteration appends exactly the row's result. -/
theorem process_step_results (env : String → SubprocessResult)
    (st : CoreState) (row : List String) :
    (process_step env st row).results = st.results ++ [row_result env row] := rfl

/-- One loop iteration leaves `total_rows` unchanged. -/
theorem process_step_total_rows (env : String → SubprocessResult)
    (st : CoreState) (row : List String) :
    (process_step env st row).total_rows = st.total_rows := rfl

/-- Processing all rows appends one result per row, in order. -/
theorem run_all_results (env : String → SubprocessResult)
    (rows : List (List String)) :
    ∀ st : CoreState,
      (run_all env rows st).results = st.results ++ rows.map (row_result env) := by
  induction rows with
  | nil => intro st; simp [run_all]
  | cons r rest ih =>
    intro st
    rw [show run_all env (r :: rest) st = run_all env rest (process_step env st r) from rfl,
      ih, process_step_results]
    simp

/-- Processing all rows advances the counter by the number of rows. -/
theorem run_all_rows_processed (env : String → SubprocessResult)
    (rows : List (List String)) :
    ∀ st : CoreState,
      (run_all env rows st).rows_processed = st.rows_processed + rows.length := by
  induction rows with
  | nil => intro st; simp [run_all]
  | cons r rest ih =>
    intro st
    rw [show run_all env (r :: rest) st = run_all env rest (process_step env st r) from rfl,
      ih, process_step_rows_processed]
    simp [Nat.add_assoc, Nat.add_comm 1 rest.length]

/-- Processing all rows leaves `total_rows` unchanged. -/
theorem run_all_total_rows (env : String → SubprocessResult)
    (rows : List (List String)) :
    ∀ st : CoreState, (run_all env rows st).total_rows = st.total_rows := by
  induction rows with
  | nil => intro st; rfl
  | cons r rest ih =>
    intro st
    rw [show run_all env (r :: rest) st = run_all env rest (process_step env st r) from rfl,
      ih, process_step_total_rows]

/-- If the cancellation flag is never observed true, the loop processes
every row. -/
theorem process_loop_no_cancel (env : String → SubprocessResult)
    (c : Nat → Bool) (hc : ∀ i, c i = false) :
    ∀ (rows : List (List String)) (st : CoreState),
      process_loop env c rows st = run_all env rows st := by
  intro rows
  induction rows with
  | nil => intro st; rfl
  | cons r rest ih =>
    intro st
    rw [show process_loop env c (r :: rest) st =
        if c st.rows_processed then st
        else process_loop env c rest (process_step env st r) from rfl]
    rw [hc st.rows_processed]
    simp only [Bool.false_eq_true, if_false]
    rw [ih]
    rfl

/-- If the flag reads false at the first `k` record boundaries and true at
boundary `k`, the loop stops there, having processed exactly the first `k`
rows. -/
theorem process_loop_cancel (env : String → SubprocessResult) (c : Nat → Bool) :
    ∀ (rows : List (List String)) (k : Nat) (st : CoreState),
      k ≤ rows.length →
      (∀ i, i < k → c (st.rows_processed + i) = false) →
      c (st.rows_processed + k) = true →
      process_loop env c rows st = run_all env (rows.take k) st := by
  intro rows
  induction rows with
  | nil =>
    intro k st hk _ _
    have hk0 : k = 0 := Nat.le_zero.mp hk
    subst hk0
    rfl
  | cons r rest ih =>
    intro k st hk hb ha
    cases k with
    | zero =>
      have h0 : c st.rows_processed = true := by simpa using ha
      rw [show process_loop env c (r :: rest) st =
          if c st.rows_processed then st
          else process_loop env c rest (process_step env st r) from rfl]
      rw [h0]
      rfl
    | succ k' =>
      have h0 : c st.rows_processed = false := by
        have := hb 0 (Nat.succ_pos k')
        simpa using this
      rw [show process_loop env c (r :: rest) st =
          if c st.rows_processed then st
          else process_loop env c rest (process_step env st r) from rfl]
      rw [h0]
      simp only [Bool.false_eq_true, if_false]
      rw [List.take_succ_cons,
        show run_all env (r :: rest.take k') st =
          run_all env (rest.take k') (process_step env st r) from rfl]
      apply ih k' (process_step env st r) (Nat.le_of_succ_le_succ hk)
      · intro i hi
        have h1 := hb (i + 1) (Nat.succ_lt_succ hi)
        have e : (process_step env st r).rows_processed + i =
            st.rows_processed + (i + 1) := by
          rw [process_step_rows_processed]; omega
        rw [e]; exact h1
      · have e : (process_step env st r).rows_processed + k' =
            st.rows_processed + (k' + 1) := by
          rw [process_step_rows_processed]; omega
        rw [e]; exact ha

/-- C1: if the cancellation flag becomes true after exactly `k` records
have been processed and before record `k+1` is attempted (`k` strictly
less than the number of records), `process_rows` stops without attempting
any further record: `rows_processed = k`, the result list has exactly the
`k` results of the first `k` records unchanged, and `processing_done` is
set. -/
theorem process_rows_cancelled (env : String → SubprocessResult)
    (c : Nat → Bool) (p : String) (rows : List (List String)) (k : Nat)
    (hk : k < rows.length) (hb : ∀ i, i < k → c i = false)
    (ha : c k = true) :
    (process_rows env c (init_core p) rows).rows_processed = k ∧
    (process_rows env c (init_core p) rows).results.length = k ∧
    (process_rows env c (init_core p) rows).processing_done = true ∧
    (process_rows env c (init_core p) rows).results =
      (rows.take k).map (row_result env) := by
  have hloop :
      process_loop env c rows
        { init_core p with total_rows := rows.length, rows_processed := 0 } =
      run_all env (rows.take k)
        { init_core p with total_rows := rows.length, rows_processed := 0 } := by
    apply process_loop_cancel env c rows k _ (Nat.le_of_lt hk)
    · intro i hi; simpa using hb i hi
    · simpa using ha
  have hres :
      (process_rows env c (init_core p) rows).results =
        (rows.take k).map (row_result env) := by
    show (process_loop env c rows
        { init_core p with total_rows := rows.length, rows_processed := 0 }).results =
      (rows.take k).map (row_result env)
    rw [hloop, run_all_results]
    rfl
  have hlen : ((rows.take k).map (row_result env)).length = k := by
    rw [List.length_map, List.length_take]
    omega
  refine ⟨?_, ?_, ?_, hres⟩
  · show (process_loop env c rows
        { init_core p with total_rows := rows.length, rows_processed := 0 }).rows_processed = k
    rw [hloop, run_all_rows_processed]
    simp [List.length_take]
    omega
  · rw [hres, hlen]
  · rfl

/-- Witness for C1: five records, cancellation observed from the boundary
after the third record on. -/
theorem process_rows_cancelled_witness :
    (process_rows envFalls cancelAt3 (init_core "out.csv") rows5).rows_processed = 3 ∧
    (process_rows envFalls cancelAt3 (init_core "out.csv") rows5).results.length = 3 := by
  have h := process_rows_cancelled envFalls cancelAt3 "out.csv" rows5 3
    (by decide)
    (by intro i hi; simp only [cancelAt3, decide_eq_false_iff_not]; omega)
    (by decide)
  exact ⟨h.1, h.2.1⟩

/-- C3: with no cancellation, `process_rows` attempts every record,
appends one result per record in input order, ends with
`rows_processed = total_rows = number of records`, and sets
`processing_done`; per-record problems are inside `row_result`, which is a
total function, so nothing aborts the batch. -/
theorem process_rows_no_cancel (env : String → SubprocessResult)
    (c : Nat → Bool) (p : String) (rows : List (List String))
    (hc : ∀ i, c i = false) :
    (process_rows env c (init_core p) rows).results = rows.map (row_result env) ∧
    (process_rows env c (init_core p) rows).rows_processed = rows.length ∧
    (process_rows env c (init_core p) rows).total_rows = rows.length ∧
    (process_rows env c (init_core p) rows).processing_done = true := by
  have hloop := process_loop_no_cancel env c hc rows
    { init_core p with total_rows := rows.length, rows_processed := 0 }
  refine ⟨?_, ?_, ?_, rfl⟩
  · show (process_loop env c rows
        { init_core p with total_rows := rows.length, rows_processed := 0 }).results =
      rows.map (row_result env)
    rw [hloop, run_all_results]
    rfl
  · show (process_loop env c rows
        { init_core p with total_rows := rows.length, rows_processed := 0 }).rows_processed =
      rows.length
    rw [hloop, run_all_rows_processed]
    show 0 + rows.length = rows.length
    omega
  · show (process_loop env c rows
        { init_core p with total_rows := rows.length, rows_processed := 0 }).total_rows =
      rows.length
    rw [hloop, run_all_total_rows]

/-- Witness for C3: a three-record input containing an empty record runs
to completion. -/
theorem process_rows_no_cancel_witness :
    (process_rows envFalls (fun _ => false) (init_core "out.csv")
        [["note one"], [""], ["note two"]]).rows_processed = 3 ∧
    (process_rows envFalls (fun _ => false) (init_core "out.csv")
        [["note one"], [""], ["note two"]]).processing_done = true := by
  have h := process_rows_no_cancel envFalls (fun _ => false) "out.csv"
    [["note one"], [""], ["note two"]] (fun _ => rfl)
  exact ⟨h.2.1, h.2.2.2⟩

/-- Every state in the boundary trace satisfies the RunState invariant,
given it holds at entry and enough headroom remains below `total_rows`. -/
theorem loop_states_invariant (env : String → SubprocessResult)
    (c : Nat → Bool) :
    ∀ (rows : List (List String)) (st : CoreState),
      st.results.length = st.rows_processed →
      st.rows_processed + rows.length ≤ st.total_rows →
      ∀ s ∈ loop_states env c rows st,
        s.results.length = s.rows_processed ∧ s.rows_processed ≤ s.total_rows := by
  intro rows
  induction rows with
  | nil =>
    intro st h1 h2 s hs
    simp only [loop_states, List.mem_singleton] at hs
    subst hs
    exact ⟨h1, by simpa using h2⟩
  | cons r rest ih =>
    intro st h1 h2 s hs
    by_cases hcc : c st.rows_processed
    · simp only [loop_states, hcc, if_true, List.mem_singleton] at hs
      subst hs
      refine ⟨h1, ?_⟩
      simp only [List.length_cons] at h2
      omega
    · simp only [loop_states, hcc, Bool.false_eq_true, if_false, List.mem_cons] at hs
      cases hs with
      | inl h =>
        subst h
        refine ⟨h1, ?_⟩
        simp only [List.length_cons] at h2
        omega
      | inr h =>
        apply ih (process_step env st r) _ _ s h
        · rw [process_step_results, process_step_rows_processed,
            List.length_append, h1]
          rfl
        · rw [process_step_rows_processed, process_step_total_rows]
          simp only [List.length_cons] at h2
          omega

/-- The boundary trace always begins with the entry state. -/
theorem loop_states_head (env : String → SubprocessResult) (c : Nat → Bool) :
    ∀ (rows : List (List String)) (st : CoreState),
      ∃ t, loop_states env c rows st = st :: t := by
  intro rows st
  cases rows with
  | nil => exact ⟨[], rfl⟩
  | cons r rest =>
    by_cases hcc : c st.rows_processed
    · exact ⟨[], by simp [loop_states, hcc]⟩
    · exact ⟨loop_states env c rest (process_step env st r),
        by simp [loop_states, hcc]⟩

/-- Along the boundary trace, `rows_processed` never decreases. -/
theorem loop_states_chain (env : String → SubprocessResult) (c : Nat → Bool) :
    ∀ (rows : List (List String)) (st : CoreState),
      List.Chain' (fun a b : CoreState => a.rows_processed ≤ b.rows_processed)
        (loop_states env c rows st) := by
  intro rows
  induction rows with
  | nil => intro st; simp [loop_states]
  | cons r rest ih =>
    intro st
    by_cases hcc : c st.rows_processed
    · simp [loop_states, hcc]
    · simp only [loop_states, hcc, Bool.false_eq_true, if_false]
      obtain ⟨t, ht⟩ := loop_states_head env c rest (process_step env st r)
      rw [ht]
      refine List.chain'_cons.mpr ⟨?_, ?_⟩
      · rw [process_step_rows_processed]; omega
      · rw [← ht]; exact ih (process_step env st r)

/-- C2: on a run started from a freshly constructed core, at every record
boundary the result list length equals `rows_processed`,
`rows_processed` never exceeds `total_rows`, and `rows_processed` is
monotonically non-decreasing along the trace. -/
theorem run_state_invariant (env : String → SubprocessResult)
    (c : Nat → Bool) (p : String) (rows : List (List String)) :
    (∀ s ∈ run_trace env c (init_core p) rows,
      s.results.length = s.rows_processed ∧ s.rows_processed ≤ s.total_rows) ∧
    List.Chain' (fun a b : CoreState => a.rows_processed ≤ b.rows_processed)
      (run_trace env c (init_core p) rows) := by
  constructor
  · intro s hs
    apply loop_states_invariant env c rows
      { init_core p with total_rows := rows.length, rows_processed := 0 }
      rfl _ s hs
    show 0 + rows.length ≤ rows.length
    omega
  · exact loop_states_chain env c rows _

/-- Witness for C2: the invariant at the first boundary state of a
concrete one-record run. -/
theorem run_state_invariant_witness :
    traceStart.results.length = traceStart.rows_processed ∧
    traceStart.rows_processed ≤ traceStart.total_rows :=
  (run_state_invariant envFalls (fun _ => false) "out.csv" [["a"]]).1
    traceStart (List.mem_cons_self _ _)

/-- C7: a record whose joined text is empty contributes the empty
placeholder result, increments `rows_processed` by one, and triggers no
LLM invocation (its invocation log is empty). -/
theorem empty_row_placeholder (env : String → SubprocessResult)
    (st : CoreState) (row : List String)
    (he : pyStrip (pyJoin row) = "") :
    (row_result_logged env row).2 = [] ∧
    process_step env st row =
      { st with results := st.results ++ [("", Verdict.str "")],
                rows_processed := st.rows_processed + 1 } := by
  constructor
  · simp [row_result_logged, he]
  · simp [process_step, row_result, row_result_logged, he]

/-- Witness for C7 at a concrete record with empty joined text. -/
theorem empty_row_placeholder_witness :
    (row_result_logged envFalls [""]).2 = [] ∧
    process_step envFalls (init_core "out.csv") [""] =
      { init_core "out.csv" with
          results := (init_core "out.csv").results ++ [("", Verdict.str "")],
          rows_processed := (init_core "out.csv").rows_processed + 1 } :=
  empty_row_placeholder envFalls (init_core "out.csv") [""] rfl

/-- `splitLines` never returns the empty list. -/
theorem splitLines_ne_nil (cs : List Char) : splitLines cs ≠ [] := by
  induction cs with
  | nil => simp [splitLines]
  | cons c t ih =>
    by_cases hc : c = '\n'
    · simp [splitLines, hc]
    · simp only [splitLines, if_neg hc]
      cases h : splitLines t with
      | nil => simp
      | cons l ls => simp

/-- Splitting after a leading newline yields an empty first line. -/
theorem splitLines_newline (t : List Char) :
    splitLines ('\n' :: t) = [] :: splitLines t := by
  simp [splitLines]

/-- A newline-free chunk terminated by a newline contributes one line. -/
theorem splitLines_append_nl (xs t : List Char) (h : '\n' ∉ xs) :
    splitLines (xs ++ '\n' :: t) = xs :: splitLines t := by
  induction xs with
  | nil => simp [splitLines]
  | cons c cs ih =>
    have hc : c ≠ '\n' := fun e => h (by rw [e]; exact List.mem_cons_self _ _)
    have h' : '\n' ∉ cs := fun m => h (List.mem_cons_of_mem _ m)
    rw [List.cons_append]
    show (if c = '\n' then [] :: splitLines (cs ++ '\n' :: t)
      else match splitLines (cs ++ '\n' :: t) with
        | [] => [[c]]
        | l :: ls => (c :: l) :: ls) = (c :: cs) :: splitLines t
    rw [if_neg hc, ih h']

/-- A newline-free text is a single line. -/
theorem splitLines_no_nl (xs : List Char) (h : '\n' ∉ xs) :
    splitLines xs = [xs] := by
  induction xs with
  | nil => rfl
  | cons c cs ih =>
    have hc : c ≠ '\n' := fun e => h (by rw [e]; exact List.mem_cons_self _ _)
    have h' : '\n' ∉ cs := fun m => h (List.mem_cons_of_mem _ m)
    show (if c = '\n' then [] :: splitLines cs
      else match splitLines cs with
        | [] => [[c]]
        | l :: ls => (c :: l) :: ls) = [c :: cs]
    rw [if_neg hc, ih h']

/-- `takeWhile` walks through a chunk it fully satisfies. -/
theorem takeWhile_append_all (p : Char → Bool) (xs ys : List Char)
    (h : xs.all p = true) :
    (xs ++ ys).takeWhile p = xs ++ ys.takeWhile p := by
  induction xs with
  | nil => simp
  | cons c cs ih =>
    simp only [List.all_cons, Bool.and_eq_true] at h
    rw [List.cons_append, List.takeWhile_cons_of_pos h.1, ih h.2, List.cons_append]

/-- A list is a prefix of itself followed by anything. -/
theorem listStarts_append_self (xs ys : List Char) :
    listStarts xs (xs ++ ys) = true := by
  induction xs with
  | nil => rfl
  | cons c cs ih => simp [listStarts, ih]

/-- A prefix of a text occurs in it. -/
theorem listContains_of_starts (x t : List Char) (h : listStarts x t = true) :
    listContains x t = true := by
  cases t with
  | nil => simpa [listContains] using h
  | cons c ct => simp [listContains, h]

/-- A list occurs in any text that embeds it between two chunks. -/
theorem listContains_append_middle (a x b : List Char) :
    listContains x (a ++ x ++ b) = true := by
  induction a with
  | nil =>
    simp only [List.nil_append]
    exact listContains_of_starts x (x ++ b) (listStarts_append_self x b)
  | cons c t ih =>
    simp only [List.cons_append, listContains, Bool.or_eq_true]
    right
    exact ih

/-- The common prefix of a list with itself. -/
theorem commonPrefix_self (xs : List Char) : commonPrefix xs xs = xs := by
  induction xs with
  | nil => rfl
  | cons c cs ih => simp [commonPrefix, ih]

/-- For a newline-free note, `textwrap.dedent` strips exactly the
twelve-space margin from every template line and leaves the note text
untouched: `build_prompt` is a fixed head, the note verbatim, and a fixed
tail. -/
theorem build_prompt_split (s : List Char) (h : '\n' ∉ s) :
    pyDedent (promptTemplate s) = promptHead ++ s ++ promptTail := by
  have hA : tplA = '\n' :: (tLine2 ++ '\n' :: (tLine3 ++ '\n' :: ('\n' ::
      (tLine5 ++ '\n' :: (tLine6 ++ '\n' :: (tLine7 ++ '\n' :: notePre)))))) := by
    decide
  have hB : tplB = '\n' :: (tLine9 ++ '\n' :: ('\n' :: ('\n' :: tLine12))) := by
    decide
  have hs2 : '\n' ∉ notePre ++ s := by
    intro hm
    rcases List.mem_append.mp hm with h1 | h2
    · exact absurd h1 (by decide)
    · exact h h2
  have hallNote : (notePre ++ s).all isBlankTab = false := by
    rw [List.all_append]
    rw [show notePre.all isBlankTab = false from by decide]
    rfl
  have hsplit : splitLines (promptTemplate s) =
      [[], tLine2, tLine3, [], tLine5, tLine6, tLine7, notePre ++ s,
       tLine9, [], [], tLine12] := by
    rw [promptTemplate, hA, hB]
    simp only [List.cons_append, List.append_assoc, List.nil_append]
    rw [splitLines_newline]
    rw [splitLines_append_nl tLine2 _ (by decide)]
    rw [splitLines_append_nl tLine3 _ (by decide)]
    rw [splitLines_newline]
    rw [splitLines_append_nl tLine5 _ (by decide)]
    rw [splitLines_append_nl tLine6 _ (by decide)]
    rw [splitLines_append_nl tLine7 _ (by decide)]
    rw [← List.append_assoc notePre s]
    rw [splitLines_append_nl (notePre ++ s) _ hs2]
    rw [splitLines_append_nl tLine9 _ (by decide)]
    rw [splitLines_newline, splitLines_newline]
    rw [splitLines_no_nl tLine12 (by decide)]
  have hwsNote : (if wsOnlyLine (notePre ++ s) then [] else notePre ++ s) =
      notePre ++ s := by
    have hw : wsOnlyLine (notePre ++ s) = false := by
      unfold wsOnlyLine
      rw [hallNote]
      simp
    rw [hw]
    simp
  have hlinote : lineIndent (notePre ++ s) = some sp12 := by
    unfold lineIndent
    rw [hallNote]
    simp only [Bool.false_eq_true, if_false]
    rw [show notePre = sp12 ++ noteTextChars from by decide, List.append_assoc,
      takeWhile_append_all isBlankTab sp12 _ (by decide)]
    rw [show noteTextChars = 'H' :: ("ere is the note: ").data from rfl,
      List.cons_append, List.takeWhile_cons_of_neg (by decide)]
    simp
  have hdnote : dedentRemove sp12 (notePre ++ s) = noteTextChars ++ s := by
    unfold dedentRemove
    rw [show notePre = sp12 ++ noteTextChars from by decide, List.append_assoc]
    rw [listStarts_append_self]
    simp only [if_true]
    exact List.drop_left _ _
  unfold pyDedent
  rw [hsplit]
  simp only [List.map_cons, List.map_nil]
  rw [hwsNote,
    show (if wsOnlyLine ([] : List Char) then [] else ([] : List Char)) =
      ([] : List Char) from by decide,
    show (if wsOnlyLine tLine2 then [] else tLine2) = tLine2 from by decide,
    show (if wsOnlyLine tLine3 then [] else tLine3) = tLine3 from by decide,
    show (if wsOnlyLine tLine5 then [] else tLine5) = tLine5 from by decide,
    show (if wsOnlyLine tLine6 then [] else tLine6) = tLine6 from by decide,
    show (if wsOnlyLine tLine7 then [] else tLine7) = tLine7 from by decide,
    show (if wsOnlyLine tLine9 then [] else tLine9) = tLine9 from by decide,
    show (if wsOnlyLine tLine12 then [] else tLine12) = tLine12 from by decide]
  unfold dedentCore
  have hfm : List.filterMap lineIndent
      [[], tLine2, tLine3, [], tLine5, tLine6, tLine7, notePre ++ s,
       tLine9, [], [], tLine12] =
      [sp12, sp12, sp12, sp12, sp12, sp12, sp12, sp12] := by
    simp only [List.filterMap_cons, List.filterMap_nil]
    rw [show lineIndent ([] : List Char) = none from by decide,
      show lineIndent tLine2 = some sp12 from by decide,
      show lineIndent tLine3 = some sp12 from by decide,
      show lineIndent tLine5 = some sp12 from by decide,
      show lineIndent tLine6 = some sp12 from by decide,
      show lineIndent tLine7 = some sp12 from by decide,
      hlinote,
      show lineIndent tLine9 = some sp12 from by decide,
      show lineIndent tLine12 = some sp12 from by decide]
  rw [hfm]
  rw [show marginOf [sp12, sp12, sp12, sp12, sp12, sp12, sp12, sp12] = sp12 from by
    simp [marginOf, commonPrefix_self]]
  rw [if_neg (by decide : ¬ (sp12 = ([] : List Char)))]
  simp only [List.map_cons, List.map_nil]
  rw [hdnote,
    show dedentRemove sp12 ([] : List Char) = [] from by decide,
    show dedentRemove sp12 tLine2 = dLine2 from by decide,
    show dedentRemove sp12 tLine3 = dLine3 from by decide,
    show dedentRemove sp12 tLine5 = dLine5 from by decide,
    show dedentRemove sp12 tLine6 = dLine6 from by decide,
    show dedentRemove sp12 tLine7 = dLine7 from by decide,
    show dedentRemove sp12 tLine9 = dLine9 from by decide,
    show dedentRemove sp12 tLine12 = dLine12 from by decide]
  rw [show promptHead = '\n' :: (dLine2 ++ '\n' :: (dLine3 ++ '\n' :: ('\n' ::
      (dLine5 ++ '\n' :: (dLine6 ++ '\n' :: (dLine7 ++ '\n' :: noteTextChars))))))
    from by decide]
  rw [show promptTail = '\n' :: (dLine9 ++ '\n' :: ('\n' :: ('\n' :: dLine12)))
    from by decide]
  simp [joinLines, List.cons_append, List.append_assoc]

/-- Counterexample to C10 as stated: the non-empty input consisting of a
line `A` followed by a line indented with four spaces shrinks the dedent
margin to four spaces, so the indentation inside the input is stripped and
the input does not occur verbatim in the built prompt. -/
theorem build_prompt_verbatim_cex :
    ("A\n    B" : String) ≠ "" ∧
    listContains ("A\n    B").data (build_prompt "A\n    B").data = false := by
  constructor
  · decide
  · decide

/-- C10 (amended to newline-free inputs): for every non-empty input text
containing no newline, `build_prompt` returns the fixed head, the input
verbatim, and the fixed tail; hence the output contains the input text
verbatim and the three role markers in order. -/
theorem build_prompt_verbatim (s : String) (h1 : s ≠ "")
    (h2 : '\n' ∉ s.data) :
    (build_prompt s).data = promptHead ++ s.data ++ promptTail ∧
    listContains s.data (build_prompt s).data = true ∧
    ∃ a b c d : List Char,
      (build_prompt s).data =
        a ++ (sysMarker ++ (b ++ (userMarker ++ (c ++ (asstMarker ++ d))))) := by
  have hsplit : (build_prompt s).data = promptHead ++ s.data ++ promptTail := by
    show pyDedent (promptTemplate s.data) = _
    exact build_prompt_split s.data h2
  refine ⟨hsplit, ?_, ?_⟩
  · rw [hsplit]
    exact listContains_append_middle promptHead s.data promptTail
  · refine ⟨("\n").data,
      ("\nYou are a helpful auditing assistant with extensive aged care nursing experience and care about elderly people<|im_end|>\n\n").data,
      ("\nPlease check this progress note for evidence of falls.\nYour response will be in JSON format with \x27true\x27 where there is evidence and \x27false\x27 where there is not evidence.\nHere is the note: ").data
        ++ s.data ++
        ("\nExample reply format: ```json\x7b\"falls\": \"true/false\"\x7d```<|im_end|>\n\n\n").data,
      [], ?_⟩
    rw [hsplit]
    rw [show promptHead = ("\n").data ++ (sysMarker ++
        (("\nYou are a helpful auditing assistant with extensive aged care nursing experience and care about elderly people<|im_end|>\n\n").data ++
          (userMarker ++
            ("\nPlease check this progress note for evidence of falls.\nYour response will be in JSON format with \x27true\x27 where there is evidence and \x27false\x27 where there is not evidence.\nHere is the note: ").data)))
      from by decide]
    rw [show promptTail =
        ("\nExample reply format: ```json\x7b\"falls\": \"true/false\"\x7d```<|im_end|>\n\n\n").data ++
          (asstMarker ++ ([] : List Char))
      from by decide]
    simp [List.append_assoc]

/-- Witness for the amended C10 at a concrete newline-free note. -/
theorem build_prompt_verbatim_witness :
    ("Patient fell in bathroom" : String) ≠ "" ∧
    listContains ("Patient fell in bathroom").data
      (build_prompt "Patient fell in bathroom").data = true := by
  have h := build_prompt_verbatim "Patient fell in bathroom" (by decide) (by decide)
  exact ⟨by decide, h.2.1⟩

end FallAudit
